import Mathlib

/-!
Shallow embedding of the Checkpoint & Timeline subsystem
(`src/core/checkpoint_manager.py` of claude-code-manager-pyqt) and proofs
about its operations: create, delete, restore, fork, diff projection and
timeline reconstruction.

Files are modelled as a finite association list from path strings to file
contents; a session log or snapshot file is a list of lines, each line being
blank, malformed JSON, or a JSON *object* record (the session-log external
interface fixes one JSON object per line).  The checkpoint index is modelled
as the in-memory list of checkpoints that the index file persists.
-/

namespace CCM

/-- JSON values, as produced by Python json.loads.  An object keeps its
fields in insertion order with distinct keys (Python dict semantics). -/
inductive Json where
  | null
  | bool (b : Bool)
  | num (n : Int)
  | str (s : String)
  | arr (elems : List Json)
  | obj (fields : List (String × Json))
deriving Repr

mutual

def Json.decEq : (a b : Json) → Decidable (a = b)
  | .null, .null => isTrue rfl
  | .bool a, .bool b =>
      if h : a = b then isTrue (by rw [h]) else isFalse (by intro he; cases he; exact h rfl)
  | .num a, .num b =>
      if h : a = b then isTrue (by rw [h]) else isFalse (by intro he; cases he; exact h rfl)
  | .str a, .str b =>
      if h : a = b then isTrue (by rw [h]) else isFalse (by intro he; cases he; exact h rfl)
  | .arr xs, .arr ys =>
      match Json.decEqList xs ys with
      | isTrue h => isTrue (by rw [h])
      | isFalse h => isFalse (by intro he; cases he; exact h rfl)
  | .obj xs, .obj ys =>
      match Json.decEqFields xs ys with
      | isTrue h => isTrue (by rw [h])
      | isFalse h => isFalse (by intro he; cases he; exact h rfl)
  | .null, .bool _ => isFalse (by intro h; cases h)
  | .null, .num _ => isFalse (by intro h; cases h)
  | .null, .str _ => isFalse (by intro h; cases h)
  | .null, .arr _ => isFalse (by intro h; cases h)
  | .null, .obj _ => isFalse (by intro h; cases h)
  | .bool _, .null => isFalse (by intro h; cases h)
  | .bool _, .num _ => isFalse (by intro h; cases h)
  | .bool _, .str _ => isFalse (by intro h; cases h)
  | .bool _, .arr _ => isFalse (by intro h; cases h)
  | .bool _, .obj _ => isFalse (by intro h; cases h)
  | .num _, .null => isFalse (by intro h; cases h)
  | .num _, .bool _ => isFalse (by intro h; cases h)
  | .num _, .str _ => isFalse (by intro h; cases h)
  | .num _, .arr _ => isFalse (by intro h; cases h)
  | .num _, .obj _ => isFalse (by intro h; cases h)
  | .str _, .null => isFalse (by intro h; cases h)
  | .str _, .bool _ => isFalse (by intro h; cases h)
  | .str _, .num _ => isFalse (by intro h; cases h)
  | .str _, .arr _ => isFalse (by intro h; cases h)
  | .str _, .obj _ => isFalse (by intro h; cases h)
  | .arr _, .null => isFalse (by intro h; cases h)
  | .arr _, .bool _ => isFalse (by intro h; cases h)
  | .arr _, .num _ => isFalse (by intro h; cases h)
  | .arr _, .str _ => isFalse (by intro h; cases h)
  | .arr _, .obj _ => isFalse (by intro h; cases h)
  | .obj _, .null => isFalse (by intro h; cases h)
  | .obj _, .bool _ => isFalse (by intro h; cases h)
  | .obj _, .num _ => isFalse (by intro h; cases h)
  | .obj _, .str _ => isFalse (by intro h; cases h)
  | .obj _, .arr _ => isFalse (by intro h; cases h)

def Json.decEqList : (xs ys : List Json) → Decidable (xs = ys)
  | [], [] => isTrue rfl
  | [], _ :: _ => isFalse (by intro h; cases h)
  | _ :: _, [] => isFalse (by intro h; cases h)
  | x :: xs, y :: ys =>
      match Json.decEq x y with
      | isFalse h => isFalse (by intro he; cases he; exact h rfl)
      | isTrue h1 =>
          match Json.decEqList xs ys with
          | isTrue h2 => isTrue (by rw [h1, h2])
          | isFalse h => isFalse (by intro he; cases he; exact h rfl)

def Json.decEqFields : (xs ys : List (String × Json)) → Decidable (xs = ys)
  | [], [] => isTrue rfl
  | [], _ :: _ => isFalse (by intro h; cases h)
  | _ :: _, [] => isFalse (by intro h; cases h)
  | (k, v) :: xs, (l, w) :: ys =>
      if hk : k = l then
        match Json.decEq v w with
        | isFalse h => isFalse (by intro he; cases he; exact h rfl)
        | isTrue h1 =>
            match Json.decEqFields xs ys with
            | isTrue h2 => isTrue (by rw [hk, h1, h2])
            | isFalse h => isFalse (by intro he; cases he; exact h rfl)
      else isFalse (by intro he; cases he; exact hk rfl)

end

instance : DecidableEq Json := Json.decEq

/-- A JSON object's field list: `dict.get(k)` — first binding of `k`. -/
def getField : List (String × Json) → String → Option Json
  | [], _ => none
  | (k, v) :: rest, key => if k = key then some v else getField rest key

/-- `dict[k] = v`: replace the binding in place if the key exists (Python
dicts keep the original position), else append a new binding. -/
def setField : List (String × Json) → String → Json → List (String × Json)
  | [], key, v => [(key, v)]
  | (k, w) :: rest, key, v =>
      if k = key then (key, v) :: rest else (k, w) :: setField rest key v

theorem getField_setField_same (r : List (String × Json)) (key : String) (v : Json) :
    getField (setField r key v) key = some v := by
  induction r with
  | nil => simp [setField, getField]
  | cons hd tl ih =>
      obtain ⟨k, w⟩ := hd
      by_cases h : k = key
      · simp [setField, getField, h]
      · simp [setField, getField, h, ih]

/-- A JSON object record of a session log (one line of a .jsonl file). -/
abbrev Record := List (String × Json)

/-- One line of a line-delimited session log, as the manager's line loop
sees it: blank after strip, malformed (json.loads raises JSONDecodeError),
or a JSON object record.  The session-log external interface is one JSON
object per line. -/
inductive LogLine where
  | blank
  | malformed
  | record (fields : Record)
deriving DecidableEq, Repr

/-- Checkpoint metadata, from models.Checkpoint.  The creation timestamp is
abstracted to a Nat. -/
structure Checkpoint where
  checkpoint_id : String
  session_id : String
  name : String
  description : String
  timestamp : Nat
  message_uuid : String
  parent_checkpoint_id : Option String
  branch_name : Option String
deriving DecidableEq, Repr

/-- The filesystem as a finite map from path strings to log-file contents:
session logs, checkpoint snapshots and restore backups all live here. -/
abbrev Fs := List (String × List LogLine)

def fsGet : Fs → String → Option (List LogLine)
  | [], _ => none
  | (p, c) :: rest, path => if p = path then some c else fsGet rest path

/-- Write a file: overwrite in place if the path exists, else create it. -/
def fsSet : Fs → String → List LogLine → Fs
  | [], path, content => [(path, content)]
  | (p, c) :: rest, path, content =>
      if p = path then (path, content) :: rest else (p, c) :: fsSet rest path content

/-- Delete a file if present (models shutil.rmtree of a snapshot dir). -/
def fsRemove (fs : Fs) (path : String) : Fs :=
  fs.filter (fun pc => pc.1 ≠ path)

/-- Path of the snapshot file of a checkpoint:
checkpoints_dir / checkpoint_id / "session.jsonl", with the manager's
checkpoints_dir abstracted to the fixed prefix "checkpoints/". -/
def snapshotPath (checkpoint_id : String) : String :=
  "checkpoints/" ++ checkpoint_id ++ "/session.jsonl"

/-- Length of the final path component (chars after the last slash). -/
def fileNameLen (p : List Char) : Nat :=
  (p.reverse.takeWhile (fun c => c ≠ '/')).length

/-- Stem of a file name per pathlib: drop the final suffix, where a suffix
starts at the last dot provided that dot is neither the first nor the last
character of the name; otherwise the name has no suffix. -/
def stemOfName (name : List Char) : List Char :=
  let sufLen := (name.reverse.takeWhile (fun c => c ≠ '.')).length
  if 1 ≤ sufLen ∧ sufLen + 1 < name.length then
    name.take (name.length - sufLen - 1)
  else name

/-- pathlib Path.with_suffix on path strings: replace the final suffix of
the last path component (modelled for nonempty file names). -/
def withSuffix (p suffix : String) : String :=
  let n := p.data.length - fileNameLen p.data
  String.mk (p.data.take n ++ stemOfName (p.data.drop n) ++ suffix.data)

/-- The backup path used by restore_checkpoint:
session_file.with_suffix(".jsonl.backup"). -/
def backupPath (session_path : String) : String :=
  withSuffix session_path ".jsonl.backup"

/-- The manager's durable state: the checkpoint index (the list persisted in
index.json) and the files it reads and writes. -/
structure ManagerState where
  index : List Checkpoint
  files : Fs
deriving Repr

/-- get_checkpoints: all checkpoints, filtered to a session when a truthy
(non-None, nonempty) session_id is given. -/
def get_checkpoints (index : List Checkpoint) (session_id : Option String) : List Checkpoint :=
  match session_id with
  | some sid => if sid = "" then index else index.filter (fun c => c.session_id = sid)
  | none => index

/-- get_checkpoint: first checkpoint of the index with the given id. -/
def get_checkpoint (index : List Checkpoint) (checkpoint_id : String) : Option Checkpoint :=
  index.find? (fun cp => cp.checkpoint_id = checkpoint_id)

/-- The session-log reading loop of create_checkpoint: skip blank and
malformed lines, collect records, stop after the first record whose uuid
field equals message_uuid. -/
def readLogUpTo (lines : List LogLine) (message_uuid : String) : List Record :=
  match lines with
  | [] => []
  | LogLine.blank :: rest => readLogUpTo rest message_uuid
  | LogLine.malformed :: rest => readLogUpTo rest message_uuid
  | LogLine.record r :: rest =>
      if getField r "uuid" = some (Json.str message_uuid) then [r]
      else r :: readLogUpTo rest message_uuid

/-- create_checkpoint.  The fresh uuid4 and datetime.now() are passed in as
fresh_id and now.  If the session log exists, its truncated records are
written as the snapshot; otherwise no snapshot file is written.  The new
checkpoint is appended to the index either way. -/
def create_checkpoint (st : ManagerState) (now : Nat) (fresh_id : String)
    (session_id session_path message_uuid name description : String)
    (parent_checkpoint_id branch_name : Option String) : Checkpoint × ManagerState :=
  let checkpoint : Checkpoint :=
    { checkpoint_id := fresh_id, session_id, name, description, timestamp := now,
      message_uuid, parent_checkpoint_id, branch_name }
  let files :=
    match fsGet st.files session_path with
    | some lines =>
        fsSet st.files (snapshotPath fresh_id)
          ((readLogUpTo lines message_uuid).map LogLine.record)
    | none => st.files
  (checkpoint, { index := st.index ++ [checkpoint], files := files })

/-- The index update of delete_checkpoint: every checkpoint whose parent is
the deleted id is repointed to the deleted checkpoint's own parent, then
every entry carrying the deleted id is dropped. -/
def reparentIndex (index : List Checkpoint) (checkpoint_id : String)
    (checkpoint : Checkpoint) : List Checkpoint :=
  (index.map (fun c =>
    if c.parent_checkpoint_id = some checkpoint_id then
      { c with parent_checkpoint_id := checkpoint.parent_checkpoint_id }
    else c)).filter (fun c => c.checkpoint_id ≠ checkpoint_id)

/-- delete_checkpoint: fail if the id is not found; otherwise remove the
snapshot, repoint every checkpoint whose parent is the deleted id to the
deleted checkpoint's own parent, and drop the deleted id from the index. -/
def delete_checkpoint (st : ManagerState) (checkpoint_id : String) : Bool × ManagerState :=
  match get_checkpoint st.index checkpoint_id with
  | none => (false, st)
  | some checkpoint =>
      let files := fsRemove st.files (snapshotPath checkpoint_id)
      let index := reparentIndex st.index checkpoint_id checkpoint
      (true, { index := index, files := files })

/-- restore_checkpoint: fail if the checkpoint or its snapshot is missing;
otherwise back up the live session file (when it exists) to the sibling
backup path, then overwrite the live file with the snapshot. -/
def restore_checkpoint (st : ManagerState) (checkpoint_id session_path : String) :
    Bool × ManagerState :=
  match get_checkpoint st.index checkpoint_id with
  | none => (false, st)
  | some _ =>
      match fsGet st.files (snapshotPath checkpoint_id) with
      | none => (false, st)
      | some snapshot =>
          let files1 :=
            match fsGet st.files session_path with
            | some live => fsSet st.files (backupPath session_path) live
            | none => st.files
          (true, { st with files := fsSet files1 session_path snapshot })

/-- The per-line record transform of fork_session: a line that parses to a
JSON object has its sessionId field set to the new session id; a line that
json.loads rejects (blank after strip, or malformed) is skipped. -/
def retagLine (new_session_id : String) : LogLine → Option LogLine
  | LogLine.record r =>
      some (LogLine.record (setField r "sessionId" (Json.str new_session_id)))
  | _ => none

/-- fork_session: fail if the checkpoint or its snapshot is missing;
otherwise write every record of the snapshot, with its sessionId field set
to the new session id, to project_path/new_session_id.jsonl (lines that
json.loads rejects are skipped), create a checkpoint for the fork whose
parent is the source checkpoint, and return the new path. -/
def fork_session (st : ManagerState) (now : Nat) (fresh_id : String)
    (checkpoint_id new_session_id project_path branch_name : String) :
    Option String × ManagerState :=
  match get_checkpoint st.index checkpoint_id with
  | none => (none, st)
  | some checkpoint =>
      match fsGet st.files (snapshotPath checkpoint_id) with
      | none => (none, st)
      | some snapshot =>
          let new_session_path := project_path ++ "/" ++ new_session_id ++ ".jsonl"
          let newContent := snapshot.filterMap (retagLine new_session_id)
          let st1 : ManagerState := { st with files := fsSet st.files new_session_path newContent }
          let st2 := (create_checkpoint st1 now fresh_id new_session_id new_session_path
            checkpoint.message_uuid ("Fork from " ++ checkpoint.name)
            ("Forked from checkpoint: " ++ checkpoint.name)
            (some checkpoint_id) (some branch_name)).2
          (some new_session_path, st2)

/-- get_checkpoint_messages: records of a checkpoint's snapshot whose type
field is the string "user" or "assistant"; empty when the snapshot file is
missing.  (A JSON type value that is not one of those two strings is not in
the membership list and is filtered out.) -/
def get_checkpoint_messages (files : Fs) (checkpoint_id : String) : List Record :=
  match fsGet files (snapshotPath checkpoint_id) with
  | none => []
  | some lines => lines.filterMap (fun line =>
      match line with
      | LogLine.record r =>
          if getField r "type" = some (Json.str "user") ∨
             getField r "type" = some (Json.str "assistant") then some r
          else none
      | _ => none)

mutual

/-- Python repr of a JSON value (as used inside str() of a list or dict).
String escaping and quote choice are not modelled: faithful for strings
without quotes or control characters, which is all the claims exercise. -/
def pyRepr : Json → String
  | .null => "None"
  | .bool true => "True"
  | .bool false => "False"
  | .num n => toString n
  | .str s => "'" ++ s ++ "'"
  | .arr xs => "[" ++ String.intercalate ", " (pyReprList xs) ++ "]"
  | .obj fs => "\x7b" ++ String.intercalate ", " (pyReprFields fs) ++ "\x7d"

def pyReprList : List Json → List String
  | [] => []
  | x :: xs => pyRepr x :: pyReprList xs

def pyReprFields : List (String × Json) → List String
  | [] => []
  | (k, v) :: xs => ("'" ++ k ++ "': " ++ pyRepr v) :: pyReprFields xs

end

/-- Python str() of a JSON value, as interpolated by an f-string. -/
def pyToStr : Json → String
  | .str s => s
  | j => pyRepr j

/-- The per-message projection of the diff engine: take the message object
(msg.get with default of an empty dict; per the log's external interface a
present message field is an object), its role (default the empty string)
and its content (default the empty string); a message whose content is a
plain string is projected to one display line, any other content shape is
skipped. -/
def projectMsg (msg : Record) : Option String :=
  let message : Record :=
    match getField msg "message" with
    | some (Json.obj f) => f
    | _ => []
  let role := (getField message "role").getD (Json.str "")
  match (getField message "content").getD (Json.str "") with
  | Json.str text => some ("[" ++ pyToStr role ++ "]: " ++ text.take 200 ++ "...")
  | _ => none

/-- The projected line sequence that get_diff_between_checkpoints builds for
one side of the unified diff (the content1 and content2 lists). -/
def content_lines (messages : List Record) : List String :=
  messages.filterMap projectMsg

/-- A node of the timeline tree: a checkpoint and its child subtrees. -/
inductive TimelineNode where
  | node (checkpoint : Checkpoint) (children : List TimelineNode)
deriving Repr

/-- The recursive build_tree of get_timeline: children of a node are the
session's checkpoints whose parent_checkpoint_id is the node's id.  The
Python recursion terminates exactly when the parent graph is acyclic; the
fuel argument (instantiated with the number of checkpoints, an upper bound
on the depth of any acyclic ancestry chain) makes it total here. -/
def build_tree (checkpoints : List Checkpoint) : Nat → Checkpoint → TimelineNode
  | 0, cp => TimelineNode.node cp []
  | fuel + 1, cp =>
      TimelineNode.node cp
        ((checkpoints.filter
            (fun c => c.parent_checkpoint_id = some cp.checkpoint_id)).map
          (build_tree checkpoints fuel))

/-- The timeline value returned by get_timeline. -/
structure Timeline where
  session_id : String
  total_checkpoints : Nat
  branches : List String
  tree : List TimelineNode
deriving Repr

/-- The branch_name of a checkpoint when it is truthy (neither None nor the
empty string), as tested by the branches list comprehension. -/
def branchValue (c : Checkpoint) : Option String :=
  match c.branch_name with
  | some b => if b = "" then none else some b
  | none => none

/-- get_timeline: filter the index to the session, take as roots the
checkpoints whose parent_checkpoint_id is None, and build the tree under
each root; branches collects the truthy branch_name values. -/
def get_timeline (index : List Checkpoint) (session_id : String) : Timeline :=
  let checkpoints := get_checkpoints index (some session_id)
  let root_checkpoints := checkpoints.filter (fun c => c.parent_checkpoint_id = none)
  { session_id := session_id
    total_checkpoints := checkpoints.length
    branches := checkpoints.filterMap branchValue
    tree := root_checkpoints.map (build_tree checkpoints checkpoints.length) }

mutual

/-- Number of nodes of a timeline tree. -/
def nodeCount : TimelineNode → Nat
  | TimelineNode.node _ children => 1 + nodeCountList children

/-- Number of nodes summed across a forest. -/
def nodeCountList : List TimelineNode → Nat
  | [] => 0
  | t :: ts => nodeCount t + nodeCountList ts

end

mutual

/-- Whether a checkpoint with the given id occurs in a timeline tree. -/
def occursInTree (checkpoint_id : String) : TimelineNode → Bool
  | TimelineNode.node cp children =>
      cp.checkpoint_id = checkpoint_id || occursInForest checkpoint_id children

/-- Whether a checkpoint with the given id occurs in a forest. -/
def occursInForest (checkpoint_id : String) : List TimelineNode → Bool
  | [] => false
  | t :: ts => occursInTree checkpoint_id t || occursInForest checkpoint_id ts

end

/-- The parseable records of a log, in order: what the line loops see after
skipping blank and malformed lines. -/
def parseRecords (lines : List LogLine) : List Record :=
  lines.filterMap (fun l =>
    match l with
    | LogLine.record r => some r
    | _ => none)

/-- Spec-side truncation: the elements from the head of the list through
the first one satisfying p, inclusive; the whole list when none does.
Stated from the words of the specification, for comparison with the
source-derived readLogUpTo. -/
def takeThroughFirst {α : Type} (p : α → Bool) : List α → List α
  | [] => []
  | a :: rest => if p a then [a] else a :: takeThroughFirst p rest

/-! ## Concrete fixtures -/

/-- A checkpoint fixture with a snapshot, used by restore witnesses. -/
def cpR1 : Checkpoint :=
  { checkpoint_id := "c1", session_id := "s1", name := "first", description := "",
    timestamp := 1, message_uuid := "m1", parent_checkpoint_id := none, branch_name := none }

/-- A second checkpoint fixture with its own snapshot. -/
def cpR2 : Checkpoint :=
  { checkpoint_id := "c2", session_id := "s1", name := "second", description := "",
    timestamp := 2, message_uuid := "m2", parent_checkpoint_id := some "c1", branch_name := none }

/-- Snapshot content of cpR1. -/
def snapR1 : List LogLine := [LogLine.record [("uuid", Json.str "m1")]]

/-- Snapshot content of cpR2. -/
def snapR2 : List LogLine :=
  [LogLine.record [("uuid", Json.str "m1")], LogLine.record [("uuid", Json.str "m2")]]

/-- Live session content before any restore. -/
def liveR : List LogLine :=
  [LogLine.record [("uuid", Json.str "m1")], LogLine.record [("uuid", Json.str "m3")]]

/-- Manager state with two restorable checkpoints and a live session file. -/
def stR : ManagerState :=
  { index := [cpR1, cpR2],
    files := [(snapshotPath "c1", snapR1), (snapshotPath "c2", snapR2),
              ("proj/sess.jsonl", liveR)] }

/-- A session log fixture: a blank line, a malformed line, and three
records, the second of which carries the uuid "m2". -/
def logC5 : List LogLine :=
  [LogLine.blank, LogLine.malformed,
   LogLine.record [("uuid", Json.str "m1"), ("n", Json.num 1)],
   LogLine.record [("uuid", Json.str "m2")],
   LogLine.record [("sessionId", Json.str "s1")]]

/-- Manager state holding only the session log fixture. -/
def stC5 : ManagerState := { index := [], files := [("log.jsonl", logC5)] }

/-- A self-parented checkpoint: its parent_checkpoint_id is its own id, so
it resolves to an existing checkpoint (itself). -/
def cpSelf : Checkpoint :=
  { checkpoint_id := "A", session_id := "s1", name := "a", description := "",
    timestamp := 1, message_uuid := "ma", parent_checkpoint_id := some "A",
    branch_name := none }

/-- A child of the self-parented checkpoint. -/
def cpChild : Checkpoint :=
  { checkpoint_id := "B", session_id := "s1", name := "b", description := "",
    timestamp := 2, message_uuid := "mb", parent_checkpoint_id := some "A",
    branch_name := none }

/-- State whose index holds the self-parented checkpoint and its child. -/
def stC3 : ManagerState := { index := [cpSelf, cpChild], files := [] }

/-- Two checkpoints of one session sharing the branch name "fork". -/
def cpB1 : Checkpoint :=
  { checkpoint_id := "b1", session_id := "s1", name := "x", description := "",
    timestamp := 1, message_uuid := "m1", parent_checkpoint_id := none,
    branch_name := some "fork" }

/-- The second checkpoint with the duplicate branch name. -/
def cpB2 : Checkpoint :=
  { checkpoint_id := "b2", session_id := "s1", name := "y", description := "",
    timestamp := 2, message_uuid := "m2", parent_checkpoint_id := some "b1",
    branch_name := some "fork" }

/-- A root checkpoint living in session "t". -/
def cpT1 : Checkpoint :=
  { checkpoint_id := "A", session_id := "t", name := "src", description := "",
    timestamp := 1, message_uuid := "m1", parent_checkpoint_id := none,
    branch_name := none }

/-- The checkpoint created by forking cpT1 into session "s": its parent is a
checkpoint of a different session, exactly the state fork_session leaves
behind. -/
def cpT2 : Checkpoint :=
  { checkpoint_id := "B", session_id := "s", name := "Fork from src",
    description := "Forked from checkpoint: src", timestamp := 2,
    message_uuid := "m1", parent_checkpoint_id := some "A",
    branch_name := some "fork" }

/-- A user chat record whose content is the plain string "hi". -/
def msgU : Record :=
  [("type", Json.str "user"),
   ("message", Json.obj [("role", Json.str "user"), ("content", Json.str "hi")])]

/-- An assistant record whose content is structured (an array), not a plain
string. -/
def msgT : Record :=
  [("type", Json.str "assistant"),
   ("message", Json.obj [("role", Json.str "assistant"),
     ("content", Json.arr [Json.obj [("text", Json.str "hi")]])])]

/-- Filesystem holding a snapshot for checkpoint d1 with the two records. -/
def filesC8 : Fs :=
  [(snapshotPath "d1", [LogLine.record msgU, LogLine.record msgT])]

/-! ## Helper lemmas -/

theorem fsGet_fsSet_same (fs : Fs) (path : String) (content : List LogLine) :
    fsGet (fsSet fs path content) path = some content := by
  induction fs with
  | nil => simp [fsSet, fsGet]
  | cons hd tl ih =>
      obtain ⟨p, c⟩ := hd
      by_cases h : p = path
      · simp [fsSet, fsGet, h]
      · simp [fsSet, fsGet, h, ih]

theorem fsGet_fsSet_ne (fs : Fs) (path other : String) (content : List LogLine)
    (h : path ≠ other) : fsGet (fsSet fs path content) other = fsGet fs other := by
  induction fs with
  | nil => simp [fsSet, fsGet, h]
  | cons hd tl ih =>
      obtain ⟨p, c⟩ := hd
      by_cases hp : p = path
      · subst hp
        simp [fsSet, fsGet, h]
      · by_cases ho : p = other
        · simp [fsSet, fsGet, hp, ho, Ne.symm h]
        · simp [fsSet, fsGet, hp, ho, ih]

theorem takeWhile_backup_rev (l : List Char) :
    List.takeWhile (fun c => c ≠ '.') ((".jsonl.backup").data.reverse ++ l) =
      ['p', 'u', 'k', 'c', 'a', 'b'] := rfl

/-- with_suffix always changes the path: the new suffix ".jsonl.backup"
contains two dots while a parsed suffix extends only from the last dot, so
the backup path of a session file is never the session file itself. -/
theorem backupPath_ne (p : String) : backupPath p ≠ p := by
  intro h
  have hd : p.data.take (p.data.length - fileNameLen p.data) ++
      (stemOfName (p.data.drop (p.data.length - fileNameLen p.data)) ++
        (".jsonl.backup").data) = p.data := by
    have h2 := congrArg String.data h
    simpa [backupPath, withSuffix] using h2
  have hsplit : p.data.take (p.data.length - fileNameLen p.data) ++
      p.data.drop (p.data.length - fileNameLen p.data) = p.data :=
    List.take_append_drop _ _
  have heq : stemOfName (p.data.drop (p.data.length - fileNameLen p.data)) ++
      (".jsonl.backup").data = p.data.drop (p.data.length - fileNameLen p.data) :=
    List.append_cancel_left (hd.trans hsplit.symm)
  generalize hname : p.data.drop (p.data.length - fileNameLen p.data) = name at heq
  generalize hs : stemOfName name = s at heq
  have hrev : name.reverse = (".jsonl.backup").data.reverse ++ s.reverse := by
    rw [← heq, List.reverse_append]
  have hlen : name.length = s.length + 13 := by
    rw [← heq, List.length_append]
    simp [Nat.add_comm]
  have hstem : stemOfName name = name.take (name.length - 6 - 1) := by
    have h7 : 7 < name.length := by omega
    rw [stemOfName, hrev, takeWhile_backup_rev]
    simp [h7]
  have htake : name.take (name.length - 6 - 1) = s ++ (".jsonl.backup").data.take 6 := by
    have hidx : name.length - 6 - 1 = s.length + 6 := by omega
    rw [hidx, ← heq, List.take_append]
  have hcontra : s = s ++ (".jsonl.backup").data.take 6 :=
    (hs.symm.trans hstem).trans htake
  have hlc := congrArg List.length hcontra
  have h6 : ((".jsonl.backup").data.take 6).length = 6 := rfl
  rw [List.length_append, h6] at hlc
  omega

/-- The source log loop agrees with the spec-side description: collect the
parseable records and stop after the first whose uuid field equals the
target. -/
theorem readLogUpTo_eq_takeThroughFirst (lines : List LogLine) (u : String) :
    readLogUpTo lines u =
      takeThroughFirst (fun r => getField r "uuid" = some (Json.str u))
        (parseRecords lines) := by
  induction lines with
  | nil => rfl
  | cons hd tl ih =>
      cases hd with
      | blank =>
          simp only [readLogUpTo, parseRecords, List.filterMap_cons] at ih ⊢
          exact ih
      | malformed =>
          simp only [readLogUpTo, parseRecords, List.filterMap_cons] at ih ⊢
          exact ih
      | record r =>
          simp only [readLogUpTo, parseRecords, List.filterMap_cons, takeThroughFirst] at ih ⊢
          by_cases h : getField r "uuid" = some (Json.str u)
          · simp [h]
          · simp only [h, if_false, decide_eq_true_eq]
            exact congrArg (r :: ·) ih

/-- takeThroughFirst does not truncate a list none of whose elements
satisfies the predicate. -/
theorem takeThroughFirst_all_false {α : Type} (p : α → Bool) (l : List α)
    (h : ∀ a ∈ l, p a = false) : takeThroughFirst p l = l := by
  induction l with
  | nil => rfl
  | cons a t ih =>
      rw [takeThroughFirst, if_neg, ih (fun x hx => h x (List.mem_cons_of_mem a hx))]
      simp [h a (List.mem_cons_self a t)]

/-- On a snapshot whose lines are all records, fork's retagging keeps every
record (same count) and stamps the new session id into each. -/
theorem retagLine_filterMap_spec (nsid : String) (snapshot : List LogLine)
    (hall : ∀ l ∈ snapshot, ∃ r, l = LogLine.record r) :
    (snapshot.filterMap (retagLine nsid)).length = snapshot.length ∧
    ∀ l ∈ snapshot.filterMap (retagLine nsid), ∃ r, l = LogLine.record r ∧
      getField r "sessionId" = some (Json.str nsid) := by
  induction snapshot with
  | nil => simp
  | cons hd tl ih =>
      obtain ⟨r, rfl⟩ := hall hd (List.mem_cons_self hd tl)
      have ih2 := ih (fun l hl => hall l (List.mem_cons_of_mem _ hl))
      simp only [List.filterMap_cons, retagLine, List.length_cons]
      constructor
      · simp [ih2.1]
      · intro l hl
        rcases List.mem_cons.mp hl with hl | hl
        · exact ⟨setField r "sessionId" (Json.str nsid), hl,
            getField_setField_same r "sessionId" (Json.str nsid)⟩
        · exact ih2.2 l hl

theorem reparentIndex_mem (idx : List Checkpoint) (cid : String) (cp c : Checkpoint)
    (hc : c ∈ idx) (hne : c.checkpoint_id ≠ cid) :
    (if c.parent_checkpoint_id = some cid then
      { c with parent_checkpoint_id := cp.parent_checkpoint_id } else c) ∈
      reparentIndex idx cid cp := by
  rw [reparentIndex, List.mem_filter]
  refine ⟨List.mem_map.mpr ⟨c, hc, rfl⟩, ?_⟩
  by_cases h : c.parent_checkpoint_id = some cid <;> simp [h, hne]

theorem reparentIndex_id_ne (idx : List Checkpoint) (cid : String) (cp : Checkpoint) :
    ∀ c ∈ reparentIndex idx cid cp, c.checkpoint_id ≠ cid := by
  intro c hc
  rw [reparentIndex, List.mem_filter] at hc
  simpa using hc.2

theorem reparentIndex_id_preserved (idx : List Checkpoint) (cid : String)
    (cp p : Checkpoint) (hp : p ∈ idx) (hne : p.checkpoint_id ≠ cid) :
    ∃ q ∈ reparentIndex idx cid cp, q.checkpoint_id = p.checkpoint_id := by
  refine ⟨_, reparentIndex_mem idx cid cp p hp hne, ?_⟩
  by_cases h : p.parent_checkpoint_id = some cid <;> simp [h]

/-- Re-parenting preserves resolvability of parent references, provided the
deleted checkpoint is not its own parent. -/
theorem reparentIndex_resolves (idx : List Checkpoint) (cid : String) (cp : Checkpoint)
    (hwf : ∀ c ∈ idx, c.parent_checkpoint_id = none ∨
      ∃ p ∈ idx, c.parent_checkpoint_id = some p.checkpoint_id)
    (hcp : cp ∈ idx)
    (hself : cp.parent_checkpoint_id ≠ some cid) :
    ∀ c ∈ reparentIndex idx cid cp, c.parent_checkpoint_id = none ∨
      ∃ p ∈ reparentIndex idx cid cp,
        c.parent_checkpoint_id = some p.checkpoint_id := by
  intro c hc
  rw [reparentIndex, List.mem_filter] at hc
  obtain ⟨c0, hc0, hc0eq⟩ := List.mem_map.mp hc.1
  by_cases h : c0.parent_checkpoint_id = some cid
  · rw [if_pos h] at hc0eq
    subst hc0eq
    rcases hwf cp hcp with hnone | ⟨p, hpmem, hpeq⟩
    · left
      exact hnone
    · right
      have hpne : p.checkpoint_id ≠ cid := by
        intro he
        apply hself
        rw [hpeq, he]
      obtain ⟨q, hq, hqeq⟩ := reparentIndex_id_preserved idx cid cp p hpmem hpne
      exact ⟨q, hq, by rw [← hqeq] at hpeq; exact hpeq⟩
  · rw [if_neg h] at hc0eq
    subst hc0eq
    rcases hwf c0 hc0 with hnone | ⟨p, hpmem, hpeq⟩
    · left
      exact hnone
    · right
      have hpne : p.checkpoint_id ≠ cid := by
        intro he
        apply h
        rw [hpeq, he]
      obtain ⟨q, hq, hqeq⟩ := reparentIndex_id_preserved idx cid cp p hpmem hpne
      exact ⟨q, hq, by rw [← hqeq] at hpeq; exact hpeq⟩

theorem count_filterMap_branchValue (l : List Checkpoint) (s : String) (hs : s ≠ "") :
    (l.filterMap branchValue).count s =
      (l.filter (fun c => c.branch_name = some s)).length := by
  induction l with
  | nil => rfl
  | cons c t ih =>
      cases hb : c.branch_name with
      | none => simp [List.filterMap_cons, branchValue, hb, ih]
      | some b =>
          by_cases hbe : b = ""
          · subst hbe
            simp [List.filterMap_cons, branchValue, hb, ih, Ne.symm hs]
          · by_cases hbs : b = s
            · subst hbs
              simp [List.filterMap_cons, branchValue, hb, hbe, List.count_cons, ih]
            · simp [List.filterMap_cons, branchValue, hb, hbe, hbs, List.count_cons, ih]

theorem branchValue_ne_empty (l : List Checkpoint) :
    ∀ b ∈ l.filterMap branchValue, b ≠ "" := by
  intro b hb
  obtain ⟨c, hc, hcv⟩ := List.mem_filterMap.mp hb
  cases h : c.branch_name with
  | none => simp [branchValue, h] at hcv
  | some x =>
      by_cases hx : x = ""
      · simp [branchValue, h, hx] at hcv
      · simp [branchValue, h, hx] at hcv
        subst hcv
        exact hx

/-! ## Claim theorems -/

/-- C6: when the session log is missing at creation time, create_checkpoint
still returns a checkpoint and appends it to the index but writes no file at
all; any later restore of that checkpoint returns false and any later fork
of it returns no path, each leaving the state untouched. -/
theorem create_checkpoint_missing_log (st : ManagerState)
    (res : Checkpoint × ManagerState) (now now2 : Nat)
    (fresh_id fresh_id2 session_id session_path message_uuid nm ds
      restore_path project_path new_session_id branch2 : String)
    (parent branch : Option String)
    (hlog : fsGet st.files session_path = none)
    (hfresh : fsGet st.files (snapshotPath fresh_id) = none)
    (hres : create_checkpoint st now fresh_id session_id session_path message_uuid
      nm ds parent branch = res) :
    res.2.files = st.files ∧
    res.2.index = st.index ++ [res.1] ∧
    restore_checkpoint res.2 fresh_id restore_path = (false, res.2) ∧
    fork_session res.2 now2 fresh_id2 fresh_id new_session_id project_path branch2 =
      (none, res.2) := by
  subst hres
  have hfiles : (create_checkpoint st now fresh_id session_id session_path message_uuid
      nm ds parent branch).2.files = st.files := by
    simp [create_checkpoint, hlog]
  have hsnap : fsGet (create_checkpoint st now fresh_id session_id session_path
      message_uuid nm ds parent branch).2.files (snapshotPath fresh_id) = none := by
    rw [hfiles]
    exact hfresh
  refine ⟨hfiles, rfl, ?_, ?_⟩
  · cases hc : get_checkpoint (create_checkpoint st now fresh_id session_id session_path
        message_uuid nm ds parent branch).2.index fresh_id with
    | none => simp [restore_checkpoint, hc]
    | some cp => simp [restore_checkpoint, hc, hsnap]
  · cases hc : get_checkpoint (create_checkpoint st now fresh_id session_id session_path
        message_uuid nm ds parent branch).2.index fresh_id with
    | none => simp [fork_session, hc]
    | some cp => simp [fork_session, hc, hsnap]

/-- Witness for C6: creating a checkpoint from an empty filesystem writes
nothing, records the checkpoint, and restore and fork of it fail cleanly. -/
theorem create_checkpoint_missing_log_witness :
    (create_checkpoint { index := [], files := [] } 3 "cm" "s2" "missing.jsonl"
        "mu" "n" "" none none).2.files = ({ index := [], files := [] } : ManagerState).files ∧
    (create_checkpoint { index := [], files := [] } 3 "cm" "s2" "missing.jsonl"
        "mu" "n" "" none none).2.index =
      ({ index := [], files := [] } : ManagerState).index ++
        [(create_checkpoint { index := [], files := [] } 3 "cm" "s2" "missing.jsonl"
          "mu" "n" "" none none).1] ∧
    restore_checkpoint (create_checkpoint { index := [], files := [] } 3 "cm" "s2"
        "missing.jsonl" "mu" "n" "" none none).2 "cm" "proj/sess.jsonl" =
      (false, (create_checkpoint { index := [], files := [] } 3 "cm" "s2"
        "missing.jsonl" "mu" "n" "" none none).2) ∧
    fork_session (create_checkpoint { index := [], files := [] } 3 "cm" "s2"
        "missing.jsonl" "mu" "n" "" none none).2 4 "cm2" "cm" "news" "proj" "fork" =
      (none, (create_checkpoint { index := [], files := [] } 3 "cm" "s2"
        "missing.jsonl" "mu" "n" "" none none).2) :=
  create_checkpoint_missing_log { index := [], files := [] } _ 3 4 "cm" "cm2" "s2"
    "missing.jsonl" "mu" "n" "" "proj/sess.jsonl" "proj" "news" "fork" none none
    rfl rfl rfl

/-- C5: the snapshot written by create_checkpoint from an existing session
log consists of exactly the parseable records of the log from the first
line through the first record whose uuid field equals message_uuid,
inclusive (blank and malformed lines are skipped without aborting), and
when no record's uuid matches, of every parseable record of the log. -/
theorem create_checkpoint_snapshot_spec (st : ManagerState) (now : Nat)
    (fresh_id session_id session_path message_uuid nm ds : String)
    (parent branch : Option String) (lines : List LogLine)
    (hlog : fsGet st.files session_path = some lines) :
    fsGet (create_checkpoint st now fresh_id session_id session_path message_uuid
        nm ds parent branch).2.files (snapshotPath fresh_id) =
      some ((takeThroughFirst
        (fun r => getField r "uuid" = some (Json.str message_uuid))
        (parseRecords lines)).map LogLine.record) ∧
    ((∀ r ∈ parseRecords lines,
        getField r "uuid" ≠ some (Json.str message_uuid)) →
      fsGet (create_checkpoint st now fresh_id session_id session_path message_uuid
          nm ds parent branch).2.files (snapshotPath fresh_id) =
        some ((parseRecords lines).map LogLine.record)) := by
  have h1 : fsGet (create_checkpoint st now fresh_id session_id session_path
      message_uuid nm ds parent branch).2.files (snapshotPath fresh_id) =
      some ((readLogUpTo lines message_uuid).map LogLine.record) := by
    simp only [create_checkpoint, hlog]
    exact fsGet_fsSet_same _ _ _
  constructor
  · rw [h1, readLogUpTo_eq_takeThroughFirst]
  · intro hnone
    rw [h1, readLogUpTo_eq_takeThroughFirst, takeThroughFirst_all_false]
    intro r hr
    exact decide_eq_false (hnone r hr)

/-- Witness for C5 at the log fixture: with a target uuid that appears the
snapshot is the records through that one, and with a target that never
appears the snapshot is every parseable record. -/
theorem create_checkpoint_snapshot_witness :
    fsGet (create_checkpoint stC5 7 "cs" "s1" "log.jsonl" "m2" "n" ""
        none none).2.files (snapshotPath "cs") =
      some ((takeThroughFirst
        (fun r => getField r "uuid" = some (Json.str "m2"))
        (parseRecords logC5)).map LogLine.record) ∧
    fsGet (create_checkpoint stC5 8 "cz" "s1" "log.jsonl" "zz" "n" ""
        none none).2.files (snapshotPath "cz") =
      some ((parseRecords logC5).map LogLine.record) :=
  ⟨(create_checkpoint_snapshot_spec stC5 7 "cs" "s1" "log.jsonl" "m2" "n" ""
      none none logC5 rfl).1,
   (create_checkpoint_snapshot_spec stC5 8 "cz" "s1" "log.jsonl" "zz" "n" ""
      none none logC5 rfl).2 (by decide)⟩

/-- C4: forking from a checkpoint whose snapshot exists and consists only of
parseable records succeeds with the new session path, and the newly written
session log has exactly one record per snapshot record, each carrying the
new session id in its sessionId field.  (The freshness hypothesis keeps the
fork's own new checkpoint snapshot from aliasing the new session log.) -/
theorem fork_session_rewrites_records (st : ManagerState) (now : Nat)
    (fresh_id checkpoint_id new_session_id project_path branch2 : String)
    (cp : Checkpoint) (snapshot : List LogLine)
    (hcp : get_checkpoint st.index checkpoint_id = some cp)
    (hsnap : fsGet st.files (snapshotPath checkpoint_id) = some snapshot)
    (hall : ∀ l ∈ snapshot, ∃ r, l = LogLine.record r)
    (hne : snapshotPath fresh_id ≠ project_path ++ "/" ++ new_session_id ++ ".jsonl") :
    (fork_session st now fresh_id checkpoint_id new_session_id project_path
        branch2).1 = some (project_path ++ "/" ++ new_session_id ++ ".jsonl") ∧
    fsGet (fork_session st now fresh_id checkpoint_id new_session_id project_path
        branch2).2.files (project_path ++ "/" ++ new_session_id ++ ".jsonl") =
      some (snapshot.filterMap (retagLine new_session_id)) ∧
    (snapshot.filterMap (retagLine new_session_id)).length = snapshot.length ∧
    ∀ l ∈ snapshot.filterMap (retagLine new_session_id),
      ∃ r, l = LogLine.record r ∧
        getField r "sessionId" = some (Json.str new_session_id) := by
  refine ⟨?_, ?_, (retagLine_filterMap_spec _ _ hall).1,
    (retagLine_filterMap_spec _ _ hall).2⟩
  · simp [fork_session, hcp, hsnap]
  · simp only [fork_session, hcp, hsnap, create_checkpoint, fsGet_fsSet_same]
    rw [fsGet_fsSet_ne _ _ _ _ hne, fsGet_fsSet_same]

/-- Witness for C4 at the concrete state stR: forking checkpoint c1 into
session news writes proj/news.jsonl with one retagged record. -/
theorem fork_session_rewrites_witness :
    (fork_session stR 5 "cf" "c1" "news" "proj" "fork").1 =
      some ("proj" ++ "/" ++ "news" ++ ".jsonl") ∧
    fsGet (fork_session stR 5 "cf" "c1" "news" "proj" "fork").2.files
        ("proj" ++ "/" ++ "news" ++ ".jsonl") =
      some (snapR1.filterMap (retagLine "news")) ∧
    (snapR1.filterMap (retagLine "news")).length = snapR1.length ∧
    ∀ l ∈ snapR1.filterMap (retagLine "news"),
      ∃ r, l = LogLine.record r ∧
        getField r "sessionId" = some (Json.str "news") :=
  fork_session_rewrites_records stR 5 "cf" "c1" "news" "proj" "fork" cpR1 snapR1
    rfl rfl
    (by intro l hl
        simp only [snapR1, List.mem_singleton] at hl
        exact ⟨_, hl⟩)
    (by decide)

/-- C9: create_checkpoint performs no validation of parent_checkpoint_id.
For every state and every supplied parent id it succeeds, appends exactly
the one new checkpoint (which carries the supplied parent reference) to the
index, and in particular a store can come to hold a checkpoint whose parent
reference resolves to no existing checkpoint, as the concrete instance with
parent "ghost" shows. -/
theorem create_checkpoint_no_parent_validation :
    (∀ (st : ManagerState) (now : Nat)
      (fresh_id session_id session_path message_uuid nm ds : String)
      (parent branch : Option String),
      (create_checkpoint st now fresh_id session_id session_path
          message_uuid nm ds parent branch).2.index =
        st.index ++ [(create_checkpoint st now fresh_id session_id session_path
          message_uuid nm ds parent branch).1] ∧
      (create_checkpoint st now fresh_id session_id session_path
          message_uuid nm ds parent branch).1.parent_checkpoint_id = parent) ∧
    ((create_checkpoint { index := [], files := [] } 0 "cp1" "s1" "log.jsonl"
        "m1" "n" "" (some "ghost") none).2.index =
      [{ checkpoint_id := "cp1", session_id := "s1", name := "n", description := "",
         timestamp := 0, message_uuid := "m1", parent_checkpoint_id := some "ghost",
         branch_name := none }] ∧
     get_checkpoint (create_checkpoint { index := [], files := [] } 0 "cp1" "s1"
        "log.jsonl" "m1" "n" "" (some "ghost") none).2.index "ghost" = none) := by
  refine ⟨fun st now fresh_id session_id session_path message_uuid nm ds parent branch =>
    ⟨rfl, rfl⟩, rfl, rfl⟩

/-- C2: a successful restore of an existing checkpoint with an existing
snapshot first writes the pre-restore live content to the sibling backup
path (which provably differs from the live path), so afterwards the backup
equals the pre-restore live content exactly and the live file holds the
snapshot; when the checkpoint or its snapshot is missing, restore returns
false with the state, and in particular the live session file, completely
unchanged. -/
theorem restore_checkpoint_backup_and_failure (st : ManagerState)
    (checkpoint_id session_path : String) :
    (∀ cp snapshot live,
      get_checkpoint st.index checkpoint_id = some cp →
      fsGet st.files (snapshotPath checkpoint_id) = some snapshot →
      fsGet st.files session_path = some live →
      (restore_checkpoint st checkpoint_id session_path).1 = true ∧
      fsGet (restore_checkpoint st checkpoint_id session_path).2.files
          (backupPath session_path) = some live ∧
      fsGet (restore_checkpoint st checkpoint_id session_path).2.files
          session_path = some snapshot) ∧
    ((get_checkpoint st.index checkpoint_id = none ∨
      fsGet st.files (snapshotPath checkpoint_id) = none) →
      restore_checkpoint st checkpoint_id session_path = (false, st)) := by
  constructor
  · intro cp snapshot live hcp hsnap hlive
    have hne : session_path ≠ backupPath session_path :=
      fun h => backupPath_ne session_path h.symm
    refine ⟨?_, ?_, ?_⟩
    · simp [restore_checkpoint, hcp, hsnap]
    · simp only [restore_checkpoint, hcp, hsnap, hlive]
      rw [fsGet_fsSet_ne _ _ _ _ hne, fsGet_fsSet_same]
    · simp only [restore_checkpoint, hcp, hsnap, hlive]
      rw [fsGet_fsSet_same]
  · intro h
    rcases h with h | h
    · simp [restore_checkpoint, h]
    · cases hc : get_checkpoint st.index checkpoint_id with
      | none => simp [restore_checkpoint, hc]
      | some cp => simp [restore_checkpoint, hc, h]

/-- Witness for C2 at the concrete state stR: restoring checkpoint c1 over
the live session file succeeds, the backup holds the old live content and
the live file holds the snapshot. -/
theorem restore_checkpoint_backup_witness :
    (restore_checkpoint stR "c1" "proj/sess.jsonl").1 = true ∧
    fsGet (restore_checkpoint stR "c1" "proj/sess.jsonl").2.files
        (backupPath "proj/sess.jsonl") = some liveR ∧
    fsGet (restore_checkpoint stR "c1" "proj/sess.jsonl").2.files
        "proj/sess.jsonl" = some snapR1 :=
  (restore_checkpoint_backup_and_failure stR "c1" "proj/sess.jsonl").1
    cpR1 snapR1 liveR rfl rfl rfl

/-- C10: the backup path is the fixed function backupPath of the live path
(final suffix replaced by ".jsonl.backup"), so after two successive
successful restores to the same live path the backup file equals the live
content that existed immediately before the second restore: the first
restore's backup has been overwritten. -/
theorem restore_twice_backup_overwritten (st st1 st2 : ManagerState)
    (cid1 cid2 session_path : String)
    (h1 : restore_checkpoint st cid1 session_path = (true, st1))
    (h2 : restore_checkpoint st1 cid2 session_path = (true, st2)) :
    fsGet st2.files (backupPath session_path) = fsGet st1.files session_path ∧
    (fsGet st1.files session_path).isSome = true := by
  have hne : session_path ≠ backupPath session_path :=
    fun h => backupPath_ne session_path h.symm
  cases hc1 : get_checkpoint st.index cid1 with
  | none => simp [restore_checkpoint, hc1] at h1
  | some cp1 =>
    cases hs1 : fsGet st.files (snapshotPath cid1) with
    | none => simp [restore_checkpoint, hc1, hs1] at h1
    | some snap1 =>
      have hst1 : st1.files = fsSet
          (match fsGet st.files session_path with
           | some live => fsSet st.files (backupPath session_path) live
           | none => st.files) session_path snap1 := by
        simp only [restore_checkpoint, hc1, hs1] at h1
        rw [← (Prod.mk.injEq _ _ _ _).mp h1 |>.2]
      have hlive1 : fsGet st1.files session_path = some snap1 := by
        rw [hst1, fsGet_fsSet_same]
      cases hc2 : get_checkpoint st1.index cid2 with
      | none => simp [restore_checkpoint, hc2] at h2
      | some cp2 =>
        cases hs2 : fsGet st1.files (snapshotPath cid2) with
        | none => simp [restore_checkpoint, hc2, hs2] at h2
        | some snap2 =>
          have hst2 : st2.files = fsSet
              (fsSet st1.files (backupPath session_path) snap1) session_path snap2 := by
            simp only [restore_checkpoint, hc2, hs2, hlive1] at h2
            rw [← (Prod.mk.injEq _ _ _ _).mp h2 |>.2]
          rw [hst2, fsGet_fsSet_ne _ _ _ _ hne, fsGet_fsSet_same, hlive1]
          exact ⟨rfl, rfl⟩

/-- Witness for C10 at the concrete state stR: restore c1 then c2 over the
same live path; the backup afterwards equals the live content between the
two restores. -/
theorem restore_twice_backup_witness :
    fsGet (restore_checkpoint (restore_checkpoint stR "c1" "proj/sess.jsonl").2
        "c2" "proj/sess.jsonl").2.files (backupPath "proj/sess.jsonl") =
      fsGet (restore_checkpoint stR "c1" "proj/sess.jsonl").2.files "proj/sess.jsonl" ∧
    (fsGet (restore_checkpoint stR "c1" "proj/sess.jsonl").2.files
        "proj/sess.jsonl").isSome = true :=
  restore_twice_backup_overwritten stR
    (restore_checkpoint stR "c1" "proj/sess.jsonl").2
    (restore_checkpoint (restore_checkpoint stR "c1" "proj/sess.jsonl").2
      "c2" "proj/sess.jsonl").2
    "c1" "c2" "proj/sess.jsonl" rfl rfl

/-- Counterexample to C3: in the index [cpSelf, cpChild] every non-null
parent reference resolves (cpSelf is its own parent, cpChild's parent is
cpSelf), deletion of "A" succeeds, yet afterwards cpChild remains with
parent "A" while no checkpoint "A" exists: a dangling reference. -/
theorem delete_checkpoint_dangling_counterexample :
    (∀ c ∈ stC3.index, c.parent_checkpoint_id = none ∨
      ∃ p ∈ stC3.index, c.parent_checkpoint_id = some p.checkpoint_id) ∧
    (delete_checkpoint stC3 "A").1 = true ∧
    (delete_checkpoint stC3 "A").2.index = [cpChild] ∧
    cpChild.parent_checkpoint_id = some "A" ∧
    ¬ ∃ p ∈ (delete_checkpoint stC3 "A").2.index, p.checkpoint_id = "A" := by
  decide

/-- C3 (amended): assuming every non-null parent reference in the index
resolves to an existing checkpoint AND the deleted checkpoint is not its
own parent, a successful delete repoints every child of the deleted id to
the deleted checkpoint's former parent, removes the deleted id from the
index, and leaves every remaining non-null parent reference resolvable. -/
theorem delete_checkpoint_reparent (st : ManagerState) (checkpoint_id : String)
    (cp : Checkpoint)
    (hwf : ∀ c ∈ st.index, c.parent_checkpoint_id = none ∨
      ∃ p ∈ st.index, c.parent_checkpoint_id = some p.checkpoint_id)
    (hfind : get_checkpoint st.index checkpoint_id = some cp)
    (hself : cp.parent_checkpoint_id ≠ some checkpoint_id) :
    (delete_checkpoint st checkpoint_id).1 = true ∧
    (∀ c ∈ st.index, c.checkpoint_id ≠ checkpoint_id →
      (if c.parent_checkpoint_id = some checkpoint_id then
        { c with parent_checkpoint_id := cp.parent_checkpoint_id } else c) ∈
        (delete_checkpoint st checkpoint_id).2.index) ∧
    (∀ c ∈ (delete_checkpoint st checkpoint_id).2.index,
      c.checkpoint_id ≠ checkpoint_id) ∧
    (∀ c ∈ (delete_checkpoint st checkpoint_id).2.index,
      c.parent_checkpoint_id = none ∨
      ∃ p ∈ (delete_checkpoint st checkpoint_id).2.index,
        c.parent_checkpoint_id = some p.checkpoint_id) := by
  have hmem : cp ∈ st.index := List.mem_of_find?_eq_some hfind
  have hidx : (delete_checkpoint st checkpoint_id).2.index =
      reparentIndex st.index checkpoint_id cp := by
    simp [delete_checkpoint, hfind]
  refine ⟨by simp [delete_checkpoint, hfind], ?_, ?_, ?_⟩
  · intro c hc hne
    rw [hidx]
    exact reparentIndex_mem _ _ _ _ hc hne
  · rw [hidx]
    exact reparentIndex_id_ne _ _ _
  · rw [hidx]
    exact reparentIndex_resolves _ _ _ hwf hmem hself

/-- Witness for the amended C3 at the concrete state stR: deleting c1
repoints c2 to c1's former parent (None), removes c1, and leaves every
remaining reference resolvable. -/
theorem delete_checkpoint_reparent_witness :
    (delete_checkpoint stR "c1").1 = true ∧
    (∀ c ∈ stR.index, c.checkpoint_id ≠ "c1" →
      (if c.parent_checkpoint_id = some "c1" then
        { c with parent_checkpoint_id := cpR1.parent_checkpoint_id } else c) ∈
        (delete_checkpoint stR "c1").2.index) ∧
    (∀ c ∈ (delete_checkpoint stR "c1").2.index, c.checkpoint_id ≠ "c1") ∧
    (∀ c ∈ (delete_checkpoint stR "c1").2.index,
      c.parent_checkpoint_id = none ∨
      ∃ p ∈ (delete_checkpoint stR "c1").2.index,
        c.parent_checkpoint_id = some p.checkpoint_id) :=
  delete_checkpoint_reparent stR "c1" cpR1 (by decide) rfl (by decide)

/-- Counterexample to C7: two checkpoints of one session both labelled
"fork" yield branches = ["fork", "fork"]: the branches field is not a
duplicate-free set of the non-empty branch names. -/
theorem get_timeline_branches_counterexample :
    (get_timeline [cpB1, cpB2] "s1").branches = ["fork", "fork"] ∧
    (get_timeline [cpB1, cpB2] "s1").branches.count "fork" = 2 := by
  decide

/-- C7 (amended): branches lists the truthy branch_name values of the
session's checkpoints in index order with multiplicity: each non-empty name
occurs once per checkpoint carrying it (so duplicates are kept), and the
empty string never occurs. -/
theorem get_timeline_branches_count (index : List Checkpoint)
    (session_id s : String) (hs : s ≠ "") :
    (get_timeline index session_id).branches.count s =
      ((get_checkpoints index (some session_id)).filter
        (fun c => c.branch_name = some s)).length ∧
    ∀ b ∈ (get_timeline index session_id).branches, b ≠ "" := by
  constructor
  · simp only [get_timeline]
    exact count_filterMap_branchValue _ _ hs
  · simp only [get_timeline]
    exact branchValue_ne_empty _

/-- Witness for the amended C7: at the duplicate-branch fixture the count
of "fork" equals the number of checkpoints labelled "fork", namely two. -/
theorem get_timeline_branches_count_witness :
    ((get_timeline [cpB1, cpB2] "s1").branches.count "fork" =
      ((get_checkpoints [cpB1, cpB2] (some "s1")).filter
        (fun c => c.branch_name = some "fork")).length ∧
    ∀ b ∈ (get_timeline [cpB1, cpB2] "s1").branches, b ≠ "") :=
  get_timeline_branches_count [cpB1, cpB2] "s1" "fork" (by decide)

set_option maxRecDepth 4096 in
/-- Counterexample to C8: the projected display line for a user message
with string content "hi" is "[user]: hi..." — the code appends a literal
ellipsis — which differs from "[role]: " followed by exactly the first 200
characters of the content and nothing more. -/
theorem diff_projection_counterexample :
    content_lines (get_checkpoint_messages filesC8 "d1") = ["[user]: hi..."] ∧
    ("[user]: hi..." : String) ≠ "[" ++ "user" ++ "]: " ++ ("hi" : String).take 200 := by
  constructor
  · rfl
  · decide

/-- C8 (amended): for a user/assistant record whose message object has a
string role, a plain-string content is projected to exactly
"[role]: " ++ first 200 characters ++ "..." (a literal ellipsis is always
appended), and any non-string content contributes no line at all. -/
theorem diff_projection_line (msg : Record) (mfields : List (String × Json))
    (role text : String)
    (hm : getField msg "message" = some (Json.obj mfields))
    (hrole : getField mfields "role" = some (Json.str role)) :
    (getField mfields "content" = some (Json.str text) →
      projectMsg msg = some ("[" ++ role ++ "]: " ++ text.take 200 ++ "...")) ∧
    (∀ j, getField mfields "content" = some j → (∀ s, j ≠ Json.str s) →
      projectMsg msg = none) := by
  constructor
  · intro hcontent
    simp [projectMsg, hm, hrole, hcontent, pyToStr]
  · intro j hcontent hns
    cases j with
    | str s => exact absurd rfl (hns s)
    | null => simp [projectMsg, hm, hrole, hcontent]
    | bool b => simp [projectMsg, hm, hrole, hcontent]
    | num n => simp [projectMsg, hm, hrole, hcontent]
    | arr xs => simp [projectMsg, hm, hrole, hcontent]
    | obj fs => simp [projectMsg, hm, hrole, hcontent]

/-- Witness for the amended C8: the user record with content "hi" projects
to "[user]: " ++ "hi".take 200 ++ "...", and the assistant record with
array content projects to no line. -/
theorem diff_projection_line_witness :
    projectMsg msgU = some ("[" ++ "user" ++ "]: " ++ ("hi" : String).take 200 ++ "...") ∧
    projectMsg msgT = none :=
  ⟨(diff_projection_line msgU
      [("role", Json.str "user"), ("content", Json.str "hi")] "user" "hi"
      rfl rfl).1 rfl,
   (diff_projection_line msgT
      [("role", Json.str "assistant"),
       ("content", Json.arr [Json.obj [("text", Json.str "hi")]])] "assistant" ""
      rfl rfl).2 (Json.arr [Json.obj [("text", Json.str "hi")]]) rfl
      (fun _ h => Json.noConfusion h)⟩

/-- C1 (code behavior at the failing input): with the index that
fork_session itself produces — checkpoint B of session "s" whose parent A
belongs to session "t" — get_timeline "s" reports total_checkpoints = 1 yet
returns an empty forest: B appears neither as a root (roots require a None
parent) nor as any node, so the summed node count is 0, not 1. -/
theorem get_timeline_drops_cross_session_fork :
    (get_timeline [cpT1, cpT2] "s").total_checkpoints = 1 ∧
    (get_timeline [cpT1, cpT2] "s").tree = [] ∧
    nodeCountList (get_timeline [cpT1, cpT2] "s").tree = 0 ∧
    occursInForest "B" (get_timeline [cpT1, cpT2] "s").tree = false :=
  ⟨rfl, rfl, rfl, rfl⟩

end CCM
